import Mathlib

/-!
Verification development for the storage-timeline rendering pipeline
(src/main.js, the puppeteer-based implementation: `gatherAllEvents`,
`formatTime`, `defaultMarkdownFormatter`, `defaultHTMLFormatter`,
`buildJSONMarkdownFormatter`, `buildJSONHTMLFormatter`, and the chainable
pipeline returned by `allEvents(timeLine, timeLineName)` with methods
`toMarkDown`, `toHTML`, `toPDF`, `toBuffer`).

The embedding is shallow:
- a record (event) is a pair of strings;
- the upstream record source is a list of fetch outcomes (record,
  end-of-sequence, or error), consumed exactly as the callback loop in
  `gatherAllEvents` does;
- a deferred (promise) value is `Option (Except String A)`: `none` is a
  promise that never settles, `some (Except.error e)` a rejection,
  `some (Except.ok a)` a fulfilment;
- the pipeline object is a state record holding the four promise slots of
  the source closure plus invocation counters for the formatters and the
  rendering engine (the counters count how often the corresponding
  deferred computation body runs; a then-callback runs only when its input
  promise fulfils);
- external collaborators are parameters: `locale` stands for
  Date.toLocaleString, `render` for the puppeteer HTML-to-PDF engine, and
  `parse` for JSON.parse (returning `none` where JSON.parse throws).
Machine reals do not occur; timestamps are modelled by the integer
fragment of the JavaScript Number conversion.
-/

/-- A timeline event: `\x7b time, value \x7d` as produced by
`timeLine.nextString`. -/
structure Event where
  time : String
  value : String
deriving DecidableEq, Repr

/-- One outcome of a `nextString` callback in `gatherAllEvents`
(src/main.js 146-164): an event, the end-of-sequence signal
(`!event`), or an error. -/
inductive FetchStep where
  | ok (e : Event) : FetchStep
  | eos : FetchStep
  | err (msg : String) : FetchStep
deriving DecidableEq, Repr

/-- A settled-or-pending promise: `none` never settles, `some` settles with
an `Except` outcome. -/
abbrev Deferred (α : Type) := Option (Except String α)

/-- Document bytes produced by the external rendering engine. -/
abbrev Bytes := List Nat

/-- The loop body of `gatherAllEvents`: walk the fetch outcomes, appending
events, until end-of-sequence (resolve with the accumulated list) or an
error (reject). An exhausted outcome list means the callback is never
called again, i.e. the promise never settles. -/
def gatherGo : List FetchStep → List Event → Deferred (List Event)
  | [], _ => none
  | FetchStep.err msg :: _, _ => some (Except.error msg)
  | FetchStep.eos :: _, acc => some (Except.ok acc)
  | FetchStep.ok e :: rest, acc => gatherGo rest (acc ++ [e])

/-- `gatherAllEvents` (src/main.js 146-164): drain the source into a single
deferred event list. -/
def gatherAllEvents (timeLine : List FetchStep) : Deferred (List Event) :=
  gatherGo timeLine []

/-- Whitespace for the trimming performed by the JavaScript Number
conversion (ASCII fragment). -/
def jsWhitespace (c : Char) : Bool :=
  c = ' ' || c = '\t' || c = '\n' || c = '\r'

/-- Decimal digit accumulation; `none` when a non-digit occurs. -/
def digitsVal : List Char → Nat → Option Nat
  | [], acc => some acc
  | c :: rest, acc =>
    if c.isDigit then digitsVal rest (acc * 10 + (c.toNat - 48)) else none

/-- The integer fragment of the JavaScript `Number(string)` conversion used
by `formatTime` (src/main.js 173-179): trimmed empty string is 0, an
optionally signed digit string is its value, anything else is NaN
(`none`). -/
def jsNumber (s : String) : Option Int :=
  let t := ((s.data.dropWhile jsWhitespace).reverse.dropWhile jsWhitespace).reverse
  match t with
  | [] => some 0
  | '-' :: rest =>
    if rest.isEmpty then none else (digitsVal rest 0).map (fun n => -(n : Int))
  | '+' :: rest =>
    if rest.isEmpty then none else (digitsVal rest 0).map (fun n => (n : Int))
  | cs => (digitsVal cs 0).map (fun n => (n : Int))

/-- `formatTime` (src/main.js 173-179): a numeric timestamp is rendered
through the external locale rendering (`new Date(parsed).toLocaleString()`,
the parameter `locale`); a non-numeric one is returned verbatim. -/
def formatTime (locale : Int → String) (time : String) : String :=
  match jsNumber time with
  | some n => locale n
  | none => time

/-- One Markdown section of `defaultMarkdownFormatter`
(src/main.js 192-195). -/
def mdSection (locale : Int → String) (e : Event) : String :=
  "## " ++ formatTime locale e.time ++ "\n\n" ++ e.value ++ "\n"

/-- `defaultMarkdownFormatter` (src/main.js 189-197). -/
def defaultMarkdownFormatter (locale : Int → String) (events : List Event)
    (timelineName : String) : String :=
  "# " ++ timelineName ++ "\n\n" ++
    String.intercalate "\n---\n\n" (events.map (mdSection locale))

/-- One HTML section of `defaultHTMLFormatter` (src/main.js 208-220),
with the exact template-literal whitespace of the source. -/
def htmlSection (locale : Int → String) (e : Event) : String :=
  "\n                <section class=\"event\">\n                    <h2>" ++
    formatTime locale e.time ++
    "</h2>\n                    <div class=\"event-content\">\n                        " ++
    e.value ++
    "\n                    </div>\n                </section>\n            "

/-- The enclosing HTML document template of `defaultHTMLFormatter`
(src/main.js 222-264), with the exact whitespace and style block of the
source. -/
def htmlDocWrap (timelineName : String) (eventsSections : String) : String :=
  "\n        <!DOCTYPE html>\n        <html lang=\"utf-8\">\n        <head>\n            <meta charset=\"UTF-8\">\n            <style>\n                body \x7b\n                    font-family: Arial, sans-serif;\n                    line-height: 1.6;\n                    margin: 2cm;\n                    color: #333;\n                \x7d\n                h1 \x7b\n                    color: #222;\n                    text-align: center;\n                    margin-bottom: 1.5em;\n                \x7d\n                h2 \x7b\n                    color: #333;\n                    border-bottom: 1px solid #eee;\n                    padding-bottom: 0.5em;\n                    margin-top: 1.5em;\n                \x7d\n                .event \x7b\n                    margin-bottom: 2em;\n                \x7d\n                .event-content \x7b\n                    margin: 1em 0;\n                \x7d\n                hr \x7b\n                    border: none;\n                    border-top: 1px solid #eee;\n                    margin: 2em 0;\n                \x7d\n            </style>\n            <title>" ++
    timelineName ++
    "</title>\n        </head>\n        <body>\n            <h1>" ++
    timelineName ++
    "</h1>\n            " ++
    eventsSections ++
    "\n        </body>\n        </html>\n    "

/-- `defaultHTMLFormatter` (src/main.js 207-265): sections joined by an
`<hr>` divider inside the document template. -/
def defaultHTMLFormatter (locale : Int → String) (events : List Event)
    (timelineName : String) : String :=
  htmlDocWrap timelineName
    (String.intercalate "\n<hr>\n" (events.map (htmlSection locale)))

/-- JavaScript values that JSON.parse can return (integer-number
fragment). `obj` lists the entries of the parsed object; JSON.parse
returns objects with unique keys (a duplicated source key keeps only its
last value), so lookup by first match is exact. -/
inductive Json where
  | null : Json
  | bool (b : Bool) : Json
  | num (n : Int) : Json
  | str (s : String) : Json
  | arr (elems : List Json) : Json
  | obj (entries : List (String × Json)) : Json

mutual

/-- Recursive worker for the coercion of array elements: arrays join their
elements with commas and null elements print empty inside arrays. -/
def jsValStr : Json → String
  | Json.null => "null"
  | Json.bool true => "true"
  | Json.bool false => "false"
  | Json.num n => toString n
  | Json.str s => s
  | Json.arr elems => jsArrJoin elems
  | Json.obj _ => "[object Object]"

/-- Comma join of coerced array elements. -/
def jsArrJoin : List Json → String
  | [] => ""
  | [j] => jsArrElem j
  | j :: rest => jsArrElem j ++ "," ++ jsArrJoin rest

/-- A null array element prints empty; other elements coerce as usual. -/
def jsArrElem : Json → String
  | Json.null => ""
  | j => jsValStr j

end

/-- Template-literal string coercion of a JavaScript value, as used by the
interpolations in the field-projecting formatters: null prints as the
four-letter word null, arrays join their elements with commas, plain
objects print as [object Object]. -/
def jsToString : Json → String
  | Json.null => "null"
  | Json.bool true => "true"
  | Json.bool false => "false"
  | Json.num n => toString n
  | Json.str s => s
  | Json.arr elems => jsArrJoin elems
  | Json.obj _ => "[object Object]"

/-- First-match lookup in the entry list of a parsed object. -/
def jsLookupEntries : List (String × Json) → String → Option Json
  | [], _ => none
  | (k, v) :: rest, f => if k = f then some v else jsLookupEntries rest f

/-- Property read fragment for `jsonData[field]` on a non-null value:
object entries by name, `none` (undefined) otherwise. Numeric indexing of
arrays and strings and built-in properties are outside the fragment the
formatters are specified on. -/
def jsLookup : Json → String → Option Json
  | Json.obj entries, f => jsLookupEntries entries f
  | _, _ => none

/-- True unless the value is null. -/
def notNull : Json → Bool
  | Json.null => false
  | _ => true

/-- The TypeError message raised by a property read on null. -/
def jsNullAccessError : String := "TypeError: Cannot read properties of null"

/-- `jsonData[field]` including its failure mode: a property read on null
throws; on any other value it yields the property or undefined
(`none`). -/
def jsIndex : Json → String → Except String (Option Json)
  | Json.null, _ => Except.error jsNullAccessError
  | j, f => Except.ok (jsLookup j f)

/-- The string that the projecting formatters print for a field value:
the coerced property value, or the empty string when the property is
undefined. Total companion of the possibly-throwing read. -/
def fieldValString (j : Json) (f : String) : String :=
  match jsLookup j f with
  | some v => jsToString v
  | none => ""

/-- One bullet line of `buildJSONMarkdownFormatter` (src/main.js 322-327),
including the possible TypeError of the property read. -/
def fieldLineMD (jsonData : Json) (field : String) : Except String String :=
  (jsIndex jsonData field).map (fun v =>
    "- " ++ field ++ ": " ++
      (match v with
       | some w => jsToString w
       | none => ""))

/-- ASCII fragment of the JavaScript toUpperCase used by the HTML field
lines. -/
def jsToUpper (s : String) : String := String.mk (s.data.map Char.toUpper)

/-- One list item of `buildJSONHTMLFormatter` (src/main.js 363-368). -/
def fieldLineHTML (jsonData : Json) (field : String) : Except String String :=
  (jsIndex jsonData field).map (fun v =>
    "<li><strong>" ++ jsToUpper field ++ ":</strong> " ++
      (match v with
       | some w => jsToString w
       | none => "") ++ "</li>")

/-- JavaScript Array.map with exception propagation: the callback runs
left to right and the first thrown error aborts the whole map. -/
def mapExc {α β : Type} (g : α → Except String β) : List α → Except String (List β)
  | [] => Except.ok []
  | a :: rest =>
    match g a with
    | Except.error e => Except.error e
    | Except.ok b =>
      match mapExc g rest with
      | Except.error e => Except.error e
      | Except.ok bs => Except.ok (b :: bs)

/-- The parse step shared by both field-projecting builders
(src/main.js 313-319): JSON.parse the value (the external parameter
`parse`, `none` where JSON.parse throws), falling back to the object with
the single field raw holding the whole value. -/
def jsonDataOf (parse : String → Option Json) (value : String) : Json :=
  match parse value with
  | some j => j
  | none => Json.obj [("raw", Json.str value)]

/-- The per-event body of `buildJSONMarkdownFormatter`
(src/main.js 311-330): parse the value with fallback, then render one
bullet line per requested field joined by newlines under the
formatted-time heading; a thrown property read aborts the section. -/
def jsonMdSectionE (parse : String → Option Json) (locale : Int → String)
    (fields : List String) (e : Event) : Except String String :=
  match mapExc (fieldLineMD (jsonDataOf parse e.value)) fields with
  | Except.error err => Except.error err
  | Except.ok contentLines =>
    Except.ok ("## " ++ formatTime locale e.time ++ "\n\n" ++
      String.intercalate "\n" contentLines ++ "\n")

/-- `buildJSONMarkdownFormatter` (src/main.js 306-335): the event
sections joined with a divider under the timeline heading.
Property-read errors propagate. -/
def buildJSONMarkdownFormatter (parse : String → Option Json)
    (locale : Int → String) (fields : List String) :
    List Event → String → Except String String :=
  fun events timelineName =>
    match mapExc (jsonMdSectionE parse locale fields) events with
    | Except.error err => Except.error err
    | Except.ok sections =>
      Except.ok ("# " ++ timelineName ++ "\n\n" ++
        String.intercalate "\n---\n\n" sections)

/-- The enclosing HTML document template of `buildJSONHTMLFormatter`
(src/main.js 381-425), with the exact whitespace and style block of the
source. -/
def jsonHtmlDocWrap (timelineName : String) (eventSections : String) : String :=
  "\n            <!DOCTYPE html>\n            <html lang=\"utf-8\">\n            <head>\n                <meta charset=\"UTF-8\">\n                <style>\n                    body \x7b\n                        font-family: Arial, sans-serif;\n                        line-height: 1.6;\n                        margin: 2cm;\n                        color: #333;\n                    \x7d\n                    h1 \x7b\n                        color: #222;\n                        text-align: center;\n                        margin-bottom: 1.5em;\n                    \x7d\n                    h2 \x7b\n                        color: #333;\n                        border-bottom: 1px solid #eee;\n                        padding-bottom: 0.5em;\n                        margin-top: 1.5em;\n                    \x7d\n                    .event \x7b\n                        margin-bottom: 2em;\n                    \x7d\n                    .event-fields \x7b\n                        margin: 1em 0;\n                        list-style: disc;\n                        padding-left: 2em;\n                    \x7d\n                    hr \x7b\n                        border: none;\n                        border-top: 1px solid #eee;\n                        margin: 2em 0;\n                    \x7d\n                </style>\n                <title>" ++
    timelineName ++
    "</title>\n            </head>\n            <body>\n                <h1>" ++
    timelineName ++
    "</h1>\n                " ++
    eventSections ++
    "\n            </body>\n            </html>\n        "

/-- The section template of `buildJSONHTMLFormatter`
(src/main.js 370-377) around an already-joined item list. -/
def jsonHtmlSectionWrap (displayTime items : String) : String :=
  "\n                    <section class=\"event\">\n                        <h2>" ++
    displayTime ++
    "</h2>\n                        <ul class=\"event-fields\">\n                            " ++
    items ++
    "\n                        </ul>\n                    </section>\n                "

/-- The per-event body of `buildJSONHTMLFormatter` (src/main.js 351-378):
parse the value with fallback, then render one list item per requested
field joined with the empty separator inside the section template; a
thrown property read aborts the section. -/
def jsonHtmlSectionE (parse : String → Option Json) (locale : Int → String)
    (fields : List String) (e : Event) : Except String String :=
  match mapExc (fieldLineHTML (jsonDataOf parse e.value)) fields with
  | Except.error err => Except.error err
  | Except.ok items =>
    Except.ok (jsonHtmlSectionWrap (formatTime locale e.time)
      (String.join items))

/-- `buildJSONHTMLFormatter` (src/main.js 349-427): the event sections
joined with a divider inside the document template. Property-read errors
propagate. -/
def buildJSONHTMLFormatter (parse : String → Option Json)
    (locale : Int → String) (fields : List String) :
    List Event → String → Except String String :=
  fun events timelineName =>
    match mapExc (jsonHtmlSectionE parse locale fields) events with
    | Except.error err => Except.error err
    | Except.ok sections =>
      Except.ok (jsonHtmlDocWrap timelineName
        (String.intercalate "\n<hr>\n" sections))

/-- Total form of a Markdown event section of the field-projecting
formatter, for stating its success case. -/
def jsonMdSectionStr (parse : String → Option Json) (locale : Int → String)
    (fields : List String) (e : Event) : String :=
  "## " ++ formatTime locale e.time ++ "\n\n" ++
    String.intercalate "\n"
      (fields.map (fun f =>
        "- " ++ f ++ ": " ++ fieldValString (jsonDataOf parse e.value) f)) ++
    "\n"

/-- Total form of an HTML event section of the field-projecting formatter,
for stating its success case. -/
def jsonHtmlSectionStr (parse : String → Option Json) (locale : Int → String)
    (fields : List String) (e : Event) : String :=
  jsonHtmlSectionWrap (formatTime locale e.time)
    (String.join
      (fields.map (fun f =>
        "<li><strong>" ++ jsToUpper f ++ ":</strong> " ++
          fieldValString (jsonDataOf parse e.value) f ++ "</li>")))

/-- A formatter as passed to the stage-selection methods: from the event
list and the timeline name to a string, or a thrown error. -/
abbrev Formatter := List Event → String → Except String String

/-- The final value of `toBuffer` (src/main.js 516-529): a PDF buffer, an
HTML buffer, a Markdown buffer, or the raw event array. -/
inductive Output where
  | document (bytes : Bytes) : Output
  | markup (html : String) : Output
  | text (markdown : String) : Output
  | raw (events : List Event) : Output
deriving DecidableEq, Repr

/-- The closure state of one pipeline instance returned by `allEvents`
(src/main.js 450-531): the timeline name and the four promise slots
(`eventsPromise`, `markdownPromise`, `htmlPromise`, `pdfBufferPromise`;
an unregistered slot is `none`), together with counters of how many times
the Markdown formatter, the HTML formatter, and the rendering engine have
been invoked for their stages. -/
structure PState where
  name : String
  events : Deferred (List Event)
  markdown : Option (Deferred String)
  html : Option (Deferred String)
  pdf : Option (Deferred Bytes)
  mdCalls : Nat
  htmlCalls : Nat
  renderCalls : Nat

/-- Whether a deferred value fulfils (its then-callback will run). -/
def isOkD {α : Type} : Deferred α → Bool
  | some (Except.ok _) => true
  | _ => false

/-- `eventsPromise.then((events) => formatter(events, timeLineName))`:
the formatter runs only when the events fulfil; a rejection or a
never-settling events promise passes through. -/
def registerFormat (events : Deferred (List Event)) (formatter : Formatter)
    (timelineName : String) : Deferred String :=
  match events with
  | none => none
  | some (Except.error e) => some (Except.error e)
  | some (Except.ok evs) => some (formatter evs timelineName)

/-- A string promise chained into the rendering engine: the engine runs
only when the input fulfils. -/
def bindRender (d : Deferred String) (k : String → Except String Bytes) :
    Deferred Bytes :=
  match d with
  | none => none
  | some (Except.error e) => some (Except.error e)
  | some (Except.ok x) => some (k x)

/-- Map a pure function over a deferred value. -/
def mapD {α β : Type} (f : α → β) (d : Deferred α) : Deferred β :=
  Option.map (Except.map f) d

/-- `toMarkDown(formatter)` (src/main.js 464-469): register the Markdown
computation once; a later call leaves the slot untouched. -/
def PState.toMarkDown (formatter : Formatter) (s : PState) : PState :=
  match s.markdown with
  | some _ => s
  | none =>
    { s with
      markdown := some (registerFormat s.events formatter s.name)
      mdCalls := s.mdCalls + (if isOkD s.events then 1 else 0) }

/-- `toHTML(formatter)` (src/main.js 475-480): register the HTML
computation once; a later call leaves the slot untouched. -/
def PState.toHTML (formatter : Formatter) (s : PState) : PState :=
  match s.html with
  | some _ => s
  | none =>
    { s with
      html := some (registerFormat s.events formatter s.name)
      htmlCalls := s.htmlCalls + (if isOkD s.events then 1 else 0) }

/-- The default Markdown formatter as a pipeline formatter (it never
throws). -/
def defaultMarkdownFormatterE (locale : Int → String) : Formatter :=
  fun events timelineName =>
    Except.ok (defaultMarkdownFormatter locale events timelineName)

/-- The default HTML formatter as a pipeline formatter (it never
throws). -/
def defaultHTMLFormatterE (locale : Int → String) : Formatter :=
  fun events timelineName =>
    Except.ok (defaultHTMLFormatter locale events timelineName)

/-- The global newline replacement `markdown.replace(/\n/g, "<br>")` of
the Markdown-to-PDF branch of `toPDF` (src/main.js 500). -/
def replaceNlGo : List Char → List Char
  | [] => []
  | c :: cs =>
    if c = '\n' then '<' :: 'b' :: 'r' :: '>' :: replaceNlGo cs
    else c :: replaceNlGo cs

/-- String form of the newline-to-br replacement. -/
def replaceNewlinesBr (s : String) : String := String.mk (replaceNlGo s.data)

/-- The Markdown re-wrap of `toPDF` (src/main.js 496-503): the Markdown
string becomes the body of a single default-HTML section titled
Markdown Content, newlines turned into br tags. -/
def wrapMarkdownAsHTML (locale : Int → String) (timelineName markdown : String) :
    String :=
  defaultHTMLFormatter locale
    [{ time := "Markdown Content", value := replaceNewlinesBr markdown }]
    timelineName

/-- The registration half of `toPDF` (src/main.js 491-505): once only,
chain the PDF computation off the HTML promise when present, else off the
Markdown promise through the re-wrap. The engine counter rises only when
the upstream promise fulfils (the then-callback that launches the engine
runs). The both-slots-empty case cannot occur after the default
substitution and leaves the state unchanged. -/
def registerPDF (locale : Int → String) (render : String → Except String Bytes)
    (s : PState) : PState :=
  match s.pdf with
  | some _ => s
  | none =>
    match s.html with
    | some h =>
      { s with
        pdf := some (bindRender h render)
        renderCalls := s.renderCalls + (if isOkD h then 1 else 0) }
    | none =>
      match s.markdown with
      | some m =>
        { s with
          pdf := some (bindRender m (fun md =>
            render (wrapMarkdownAsHTML locale s.name md)))
          renderCalls := s.renderCalls + (if isOkD m then 1 else 0) }
      | none => s

/-- `toPDF()` (src/main.js 486-507): if neither the HTML nor the Markdown
stage is registered, first perform the default HTML selection, then
register the PDF computation. -/
def PState.toPDF (locale : Int → String) (render : String → Except String Bytes)
    (s : PState) : PState :=
  registerPDF locale render
    (if s.html.isNone && s.markdown.isNone then
      s.toHTML (defaultHTMLFormatterE locale)
    else s)

/-- `toBuffer()` (src/main.js 516-529): return the PDF promise when
registered, else the HTML buffer, else the Markdown buffer, else the raw
events. -/
def PState.toBuffer (s : PState) : Deferred Output :=
  match s.pdf with
  | some d => mapD Output.document d
  | none =>
    match s.html with
    | some h => mapD Output.markup h
    | none =>
      match s.markdown with
      | some m => mapD Output.text m
      | none => mapD Output.raw s.events

/-- `toBuffer()` as a step on the instance: it reads the slots and assigns
none of them, so it returns the state unchanged next to its result. -/
def PState.toBufferStep (s : PState) : Deferred Output × PState :=
  (s.toBuffer, s)

/-- `allEvents(timeLine, timeLineName)` (src/main.js 450-458): gathering
starts immediately; no stage slot is registered and no formatter has
run. -/
def allEvents (timeLine : List FetchStep) (timeLineName : String) : PState :=
  { name := timeLineName
    events := gatherAllEvents timeLine
    markdown := none
    html := none
    pdf := none
    mdCalls := 0
    htmlCalls := 0
    renderCalls := 0 }

/-- One chainable stage-selection call on a pipeline instance. -/
inductive Op where
  | md (formatter : Formatter) : Op
  | html (formatter : Formatter) : Op
  | pdf : Op

/-- Apply one stage-selection call. -/
def applyOp (locale : Int → String) (render : String → Except String Bytes) :
    Op → PState → PState
  | Op.md formatter, s => s.toMarkDown formatter
  | Op.html formatter, s => s.toHTML formatter
  | Op.pdf, s => s.toPDF locale render

/-- Apply a sequence of stage-selection calls in order. -/
def applyOps (locale : Int → String) (render : String → Except String Bytes)
    (ops : List Op) (s : PState) : PState :=
  ops.foldl (fun acc op => applyOp locale render op acc) s

/-- Whether JSON.parse (the parameter `parse`) turns a value into the null
literal, the one case in which the field-projecting formatters perform a
property read on null. -/
def parsesToNull (parse : String → Option Json) (v : String) : Bool :=
  match parse v with
  | some Json.null => true
  | _ => false

/-- Memoization invariant of a pipeline instance: a stage whose slot is
unregistered has never run its computation, and no stage computation has
run more than once. -/
def CountInv (s : PState) : Prop :=
  (s.markdown = none → s.mdCalls = 0) ∧ s.mdCalls ≤ 1 ∧
  (s.html = none → s.htmlCalls = 0) ∧ s.htmlCalls ≤ 1 ∧
  (s.pdf = none → s.renderCalls = 0) ∧ s.renderCalls ≤ 1

/-- Failure invariant of a pipeline instance whose event gathering
rejected with `e`: every registered stage slot is rejected with the same
error and no formatter or engine invocation has happened. -/
def ErrInv (e : String) (s : PState) : Prop :=
  s.events = some (Except.error e) ∧
  (∀ d, s.markdown = some d → d = some (Except.error e)) ∧
  (∀ d, s.html = some d → d = some (Except.error e)) ∧
  (∀ d, s.pdf = some d → d = some (Except.error e)) ∧
  s.mdCalls = 0 ∧ s.htmlCalls = 0 ∧ s.renderCalls = 0

/-- A concrete locale rendering for concrete instances. -/
def demoLocale : Int → String := fun n => "[" ++ toString n ++ "]"

/-- A concrete rendering engine for concrete instances: the bytes are the
length of the markup. -/
def demoRender : String → Except String Bytes := fun s => Except.ok [s.length]

/-- A concrete event. -/
def demoEvent1 : Event := { time := "1000", value := "hello" }

/-- Another concrete event. -/
def demoEvent2 : Event := { time := "2000", value := "world" }

/-- A concrete record source that yields two events then ends. -/
def demoSteps : List FetchStep :=
  [FetchStep.ok demoEvent1, FetchStep.ok demoEvent2, FetchStep.eos]

/-- A concrete record source whose third fetch fails. -/
def demoFailSteps : List FetchStep :=
  [FetchStep.ok demoEvent1, FetchStep.ok demoEvent2, FetchStep.err "FetchError"]

/-- A finite table agreeing with the external JSON.parse on the concrete
payloads used in this development: the null literal parses to null, the
two flat object literals parse to the corresponding objects, and the
remaining strings used are not valid JSON (JSON.parse throws, `none`). -/
def demoParse : String → Option Json := fun s =>
  if s = "null" then some Json.null
  else if s = "\x7b\"f\":\"\"\x7d" then some (Json.obj [("f", Json.str "")])
  else if s = "\x7b\"f\":null\x7d" then some (Json.obj [("f", Json.null)])
  else if s = "\x7b\"title\":\"A\",\"description\":\"B\"\x7d" then
    some (Json.obj [("title", Json.str "A"), ("description", Json.str "B")])
  else none

/-- A concrete markup formatter returning a fixed string. -/
def demoMarkupFormatter : Formatter := fun _ _ => Except.ok "MARKUP"

/-- A concrete text formatter returning a fixed string. -/
def demoTextFormatter : Formatter := fun _ _ => Except.ok "TEXT"

/-- A concrete record whose value is a flat JSON object with two
fields. -/
def demoJsonEvent : Event :=
  { time := "1000", value := "\x7b\"title\":\"A\",\"description\":\"B\"\x7d" }

/-- A concrete record whose value is not valid JSON. -/
def demoBadJsonEvent : Event := { time := "2", value := "oops" }

theorem toMarkDown_of_some (f : Formatter) (s : PState) (d : Deferred String)
    (h : s.markdown = some d) : s.toMarkDown f = s := by
  simp [PState.toMarkDown, h]

theorem toMarkDown_of_none (f : Formatter) (s : PState) (h : s.markdown = none) :
    s.toMarkDown f =
      { s with
        markdown := some (registerFormat s.events f s.name)
        mdCalls := s.mdCalls + (if isOkD s.events then 1 else 0) } := by
  simp [PState.toMarkDown, h]

theorem toHTML_of_some (f : Formatter) (s : PState) (d : Deferred String)
    (h : s.html = some d) : s.toHTML f = s := by
  simp [PState.toHTML, h]

theorem toHTML_of_none (f : Formatter) (s : PState) (h : s.html = none) :
    s.toHTML f =
      { s with
        html := some (registerFormat s.events f s.name)
        htmlCalls := s.htmlCalls + (if isOkD s.events then 1 else 0) } := by
  simp [PState.toHTML, h]

theorem countInv_toMarkDown (f : Formatter) (s : PState) (h : CountInv s) :
    CountInv (s.toMarkDown f) := by
  obtain ⟨h1, h2, h3, h4, h5, h6⟩ := h
  cases hm : s.markdown with
  | some d =>
    rw [toMarkDown_of_some f s d hm]
    exact ⟨h1, h2, h3, h4, h5, h6⟩
  | none =>
    rw [toMarkDown_of_none f s hm]
    refine ⟨fun hc => by simp at hc, ?_, fun hc => h3 hc, h4, fun hc => h5 hc, h6⟩
    show s.mdCalls + (if isOkD s.events then 1 else 0) ≤ 1
    rw [h1 hm]
    cases isOkD s.events <;> simp

theorem countInv_toHTML (f : Formatter) (s : PState) (h : CountInv s) :
    CountInv (s.toHTML f) := by
  obtain ⟨h1, h2, h3, h4, h5, h6⟩ := h
  cases hh : s.html with
  | some d =>
    rw [toHTML_of_some f s d hh]
    exact ⟨h1, h2, h3, h4, h5, h6⟩
  | none =>
    rw [toHTML_of_none f s hh]
    refine ⟨fun hc => h1 hc, h2, fun hc => by simp at hc, ?_, fun hc => h5 hc, h6⟩
    show s.htmlCalls + (if isOkD s.events then 1 else 0) ≤ 1
    rw [h3 hh]
    cases isOkD s.events <;> simp

theorem countInv_registerPDF (locale : Int → String)
    (render : String → Except String Bytes) (s : PState) (h : CountInv s) :
    CountInv (registerPDF locale render s) := by
  obtain ⟨h1, h2, h3, h4, h5, h6⟩ := h
  cases hp : s.pdf with
  | some d =>
    simp only [registerPDF, hp]
    exact ⟨h1, h2, h3, h4, h5, h6⟩
  | none =>
    cases hh : s.html with
    | some hd =>
      simp only [registerPDF, hp, hh]
      refine ⟨fun hc => h1 hc, h2, fun hc => by simp at hc, h4, fun hc => by simp at hc, ?_⟩
      show s.renderCalls + (if isOkD hd then 1 else 0) ≤ 1
      rw [h5 hp]
      cases isOkD hd <;> simp
    | none =>
      cases hm : s.markdown with
      | some md =>
        simp only [registerPDF, hp, hh, hm]
        refine ⟨fun hc => by simp at hc, h2, fun _ => h3 hh, h4, fun hc => by simp at hc, ?_⟩
        show s.renderCalls + (if isOkD md then 1 else 0) ≤ 1
        rw [h5 hp]
        cases isOkD md <;> simp
      | none =>
        simp only [registerPDF, hp, hh, hm]
        exact ⟨h1, h2, h3, h4, h5, h6⟩

theorem countInv_toPDF (locale : Int → String)
    (render : String → Except String Bytes) (s : PState) (h : CountInv s) :
    CountInv (s.toPDF locale render) := by
  unfold PState.toPDF
  split
  · exact countInv_registerPDF locale render _ (countInv_toHTML _ s h)
  · exact countInv_registerPDF locale render s h

theorem countInv_applyOp (locale : Int → String)
    (render : String → Except String Bytes) (op : Op) (s : PState)
    (h : CountInv s) : CountInv (applyOp locale render op s) := by
  cases op with
  | md f => exact countInv_toMarkDown f s h
  | html f => exact countInv_toHTML f s h
  | pdf => exact countInv_toPDF locale render s h

theorem countInv_applyOps (locale : Int → String)
    (render : String → Except String Bytes) (ops : List Op) :
    ∀ s : PState, CountInv s → CountInv (applyOps locale render ops s) := by
  induction ops with
  | nil => intro s h; exact h
  | cons op rest ih =>
    intro s h
    exact ih (applyOp locale render op s) (countInv_applyOp locale render op s h)

theorem countInv_allEvents (steps : List FetchStep) (nm : String) :
    CountInv (allEvents steps nm) := by
  exact ⟨fun _ => rfl, Nat.zero_le 1, fun _ => rfl, Nat.zero_le 1, fun _ => rfl, Nat.zero_le 1⟩

theorem errInv_toMarkDown (e : String) (f : Formatter) (s : PState)
    (h : ErrInv e s) : ErrInv e (s.toMarkDown f) := by
  obtain ⟨h0, h1, h2, h3, h4, h5, h6⟩ := h
  cases hm : s.markdown with
  | some d =>
    rw [toMarkDown_of_some f s d hm]
    exact ⟨h0, h1, h2, h3, h4, h5, h6⟩
  | none =>
    rw [toMarkDown_of_none f s hm]
    refine ⟨h0, fun d hd => ?_, h2, h3, ?_, h5, h6⟩
    · rw [h0] at hd
      simp only [registerFormat] at hd
      simp at hd
      exact hd.symm
    · show s.mdCalls + (if isOkD s.events then 1 else 0) = 0
      rw [h0, h4]
      simp [isOkD]

theorem errInv_toHTML (e : String) (f : Formatter) (s : PState)
    (h : ErrInv e s) : ErrInv e (s.toHTML f) := by
  obtain ⟨h0, h1, h2, h3, h4, h5, h6⟩ := h
  cases hh : s.html with
  | some d =>
    rw [toHTML_of_some f s d hh]
    exact ⟨h0, h1, h2, h3, h4, h5, h6⟩
  | none =>
    rw [toHTML_of_none f s hh]
    refine ⟨h0, h1, fun d hd => ?_, h3, h4, ?_, h6⟩
    · rw [h0] at hd
      simp only [registerFormat] at hd
      simp at hd
      exact hd.symm
    · show s.htmlCalls + (if isOkD s.events then 1 else 0) = 0
      rw [h0, h5]
      simp [isOkD]

theorem errInv_registerPDF (e : String) (locale : Int → String)
    (render : String → Except String Bytes) (s : PState) (h : ErrInv e s) :
    ErrInv e (registerPDF locale render s) := by
  obtain ⟨h0, h1, h2, h3, h4, h5, h6⟩ := h
  cases hp : s.pdf with
  | some d =>
    simp only [registerPDF, hp]
    exact ⟨h0, h1, h2, h3, h4, h5, h6⟩
  | none =>
    cases hh : s.html with
    | some hd =>
      have hde : hd = some (Except.error e) := h2 hd hh
      simp only [registerPDF, hp, hh]
      refine ⟨h0, h1, fun d hx => by simp at hx; exact hx ▸ hde, ?_, h4, h5, ?_⟩
      · intro d hx
        simp at hx
        rw [← hx, hde]
        rfl
      · show s.renderCalls + (if isOkD hd then 1 else 0) = 0
        rw [h6, hde]
        simp [isOkD]
    | none =>
      cases hm : s.markdown with
      | some md =>
        have hde : md = some (Except.error e) := h1 md hm
        simp only [registerPDF, hp, hh, hm]
        refine ⟨h0, fun d hx => by simp at hx; exact hx ▸ hde, fun d hx => by simp at hx, ?_, h4, h5, ?_⟩
        · intro d hx
          simp at hx
          rw [← hx, hde]
          rfl
        · show s.renderCalls + (if isOkD md then 1 else 0) = 0
          rw [h6, hde]
          simp [isOkD]
      | none =>
        simp only [registerPDF, hp, hh, hm]
        exact ⟨h0, h1, h2, h3, h4, h5, h6⟩

theorem errInv_toPDF (e : String) (locale : Int → String)
    (render : String → Except String Bytes) (s : PState) (h : ErrInv e s) :
    ErrInv e (s.toPDF locale render) := by
  unfold PState.toPDF
  split
  · exact errInv_registerPDF e locale render _ (errInv_toHTML e _ s h)
  · exact errInv_registerPDF e locale render s h

theorem errInv_applyOp (e : String) (locale : Int → String)
    (render : String → Except String Bytes) (op : Op) (s : PState)
    (h : ErrInv e s) : ErrInv e (applyOp locale render op s) := by
  cases op with
  | md f => exact errInv_toMarkDown e f s h
  | html f => exact errInv_toHTML e f s h
  | pdf => exact errInv_toPDF e locale render s h

theorem errInv_applyOps (e : String) (locale : Int → String)
    (render : String → Except String Bytes) (ops : List Op) :
    ∀ s : PState, ErrInv e s → ErrInv e (applyOps locale render ops s) := by
  induction ops with
  | nil => intro s h; exact h
  | cons op rest ih =>
    intro s h
    exact ih (applyOp locale render op s) (errInv_applyOp e locale render op s h)

theorem errInv_toBuffer (e : String) (s : PState) (h : ErrInv e s) :
    s.toBuffer = some (Except.error e) := by
  obtain ⟨h0, h1, h2, h3, _, _, _⟩ := h
  unfold PState.toBuffer
  cases hp : s.pdf with
  | some d => rw [h3 d hp]; rfl
  | none =>
    cases hh : s.html with
    | some d => rw [h2 d hh]; rfl
    | none =>
      cases hm : s.markdown with
      | some d => rw [h1 d hm]; rfl
      | none => rw [h0]; rfl

theorem gatherGo_ok (rs : List Event) (rest : List FetchStep) :
    ∀ acc : List Event,
      gatherGo (rs.map FetchStep.ok ++ FetchStep.eos :: rest) acc =
        some (Except.ok (acc ++ rs)) := by
  induction rs with
  | nil => intro acc; simp [gatherGo]
  | cons r rs ih =>
    intro acc
    simp only [List.map_cons, List.cons_append, gatherGo]
    simpa using ih (acc ++ [r])

theorem gatherGo_err (rs : List Event) (msg : String) (rest : List FetchStep) :
    ∀ acc : List Event,
      gatherGo (rs.map FetchStep.ok ++ FetchStep.err msg :: rest) acc =
        some (Except.error msg) := by
  induction rs with
  | nil => intro acc; simp [gatherGo]
  | cons r rs ih =>
    intro acc
    simp only [List.map_cons, List.cons_append, gatherGo]
    exact ih (acc ++ [r])

theorem toHTML_html_isSome (f : Formatter) (s : PState) :
    ((s.toHTML f).html).isSome := by
  cases hh : s.html with
  | some d => rw [toHTML_of_some f s d hh, hh]; rfl
  | none => rw [toHTML_of_none f s hh]; rfl

theorem registerPDF_html (locale : Int → String)
    (render : String → Except String Bytes) (s : PState) :
    (registerPDF locale render s).html = s.html := by
  unfold registerPDF
  cases hp : s.pdf with
  | some d => rfl
  | none =>
    cases hh : s.html with
    | some hd => rfl
    | none =>
      cases hm : s.markdown with
      | some md => rfl
      | none => exact hh

theorem registerPDF_markdown (locale : Int → String)
    (render : String → Except String Bytes) (s : PState) :
    (registerPDF locale render s).markdown = s.markdown := by
  unfold registerPDF
  cases hp : s.pdf with
  | some d => rfl
  | none =>
    cases hh : s.html with
    | some hd => rfl
    | none =>
      cases hm : s.markdown with
      | some md => rfl
      | none => exact hm

theorem registerPDF_pdf_isSome (locale : Int → String)
    (render : String → Except String Bytes) (s : PState)
    (h : s.html.isSome ∨ s.markdown.isSome) :
    ((registerPDF locale render s).pdf).isSome := by
  unfold registerPDF
  cases hp : s.pdf with
  | some d => rw [hp]; rfl
  | none =>
    cases hh : s.html with
    | some hd => rfl
    | none =>
      cases hm : s.markdown with
      | some md => rfl
      | none =>
        rw [hh, hm] at h
        simp at h

theorem toPDF_pdf_isSome (locale : Int → String)
    (render : String → Except String Bytes) (s : PState) :
    ((s.toPDF locale render).pdf).isSome := by
  unfold PState.toPDF
  split
  · apply registerPDF_pdf_isSome
    left
    exact toHTML_html_isSome _ s
  · apply registerPDF_pdf_isSome
    rename_i hcond
    rw [Bool.and_eq_true] at hcond
    rcases Decidable.not_and_iff_or_not.mp hcond with hx | hx
    · left
      cases hv : s.html with
      | some d => rfl
      | none => rw [hv] at hx; simp at hx
    · right
      cases hv : s.markdown with
      | some d => rfl
      | none => rw [hv] at hx; simp at hx

theorem toPDF_not_both_none (locale : Int → String)
    (render : String → Except String Bytes) (s : PState) :
    (((s.toPDF locale render).html).isNone &&
      ((s.toPDF locale render).markdown).isNone) = false := by
  unfold PState.toPDF
  split
  · rw [registerPDF_html]
    have := toHTML_html_isSome (defaultHTMLFormatterE locale) s
    cases hv : (s.toHTML (defaultHTMLFormatterE locale)).html with
    | some d => rfl
    | none => rw [hv] at this; simp at this
  · rename_i hcond
    rw [registerPDF_html, registerPDF_markdown]
    rw [Bool.and_eq_true] at hcond
    rcases Decidable.not_and_iff_or_not.mp hcond with hx | hx
    · cases hv : s.html with
      | some d => rfl
      | none => rw [hv] at hx; simp at hx
    · cases hv : s.markdown with
      | some d => simp [hv]
      | none => rw [hv] at hx; simp at hx

theorem registerPDF_of_pdf_isSome (locale : Int → String)
    (render : String → Except String Bytes) (s : PState)
    (h : (s.pdf).isSome) : registerPDF locale render s = s := by
  cases hp : s.pdf with
  | some d => simp only [registerPDF, hp]
  | none => rw [hp] at h; simp at h

theorem toPDF_toPDF (locale locale2 : Int → String)
    (render render2 : String → Except String Bytes) (s : PState) :
    (s.toPDF locale render).toPDF locale2 render2 = s.toPDF locale render := by
  have hguard := toPDF_not_both_none locale render s
  have hpdf := toPDF_pdf_isSome locale render s
  generalize hu : s.toPDF locale render = u at hguard hpdf ⊢
  unfold PState.toPDF
  rw [hguard]
  simp only [Bool.false_eq_true, if_false]
  exact registerPDF_of_pdf_isSome locale2 render2 u hpdf

/-- C1: the resolution operation picks its output by strict precedence
over the selected stages: a registered PDF slot yields document bytes;
otherwise a registered HTML slot yields markup bytes; otherwise a
registered Markdown slot yields text bytes; otherwise the raw record
sequence is returned. In particular, a pipeline on which both the text
and the markup stages were selected but not the document stage resolves
to the markup output, never the text output. -/
theorem claim_C1_precedence :
    (∀ (s : PState) (d : Deferred Bytes), s.pdf = some d →
      s.toBuffer = mapD Output.document d) ∧
    (∀ (s : PState) (d : Deferred String), s.pdf = none → s.html = some d →
      s.toBuffer = mapD Output.markup d) ∧
    (∀ (s : PState) (d : Deferred String), s.pdf = none → s.html = none →
      s.markdown = some d → s.toBuffer = mapD Output.text d) ∧
    (∀ s : PState, s.pdf = none → s.html = none → s.markdown = none →
      s.toBuffer = mapD Output.raw s.events) ∧
    (∀ (steps : List FetchStep) (nm : String) (f g : Formatter)
        (evs : List Event), gatherAllEvents steps = some (Except.ok evs) →
      (((allEvents steps nm).toMarkDown f).toHTML g).toBuffer =
        some (Except.map Output.markup (g evs nm))) := by
  refine ⟨?_, ?_, ?_, ?_, ?_⟩
  · intro s d h
    unfold PState.toBuffer
    rw [h]
  · intro s d hp hh
    unfold PState.toBuffer
    rw [hp, hh]
  · intro s d hp hh hm
    unfold PState.toBuffer
    rw [hp, hh, hm]
  · intro s hp hh hm
    unfold PState.toBuffer
    rw [hp, hh, hm]
  · intro steps nm f g evs hg
    have h1 : (allEvents steps nm).toMarkDown f =
        { allEvents steps nm with
          markdown := some (registerFormat (gatherAllEvents steps) f nm)
          mdCalls := 0 + (if isOkD (gatherAllEvents steps) then 1 else 0) } :=
      toMarkDown_of_none f _ rfl
    rw [h1]
    rw [toHTML_of_none g _ rfl]
    unfold PState.toBuffer
    simp [allEvents, registerFormat, hg, mapD]

/-- C1 witness: with a two-event source, the text stage and then the
markup stage selected, resolution yields the markup output. -/
theorem claim_C1_precedence_witness :
    gatherAllEvents demoSteps = some (Except.ok [demoEvent1, demoEvent2]) ∧
    (((allEvents demoSteps "T").toMarkDown demoTextFormatter).toHTML
        demoMarkupFormatter).toBuffer =
      some (Except.map Output.markup
        (demoMarkupFormatter [demoEvent1, demoEvent2] "T")) :=
  ⟨rfl, claim_C1_precedence.2.2.2.2 demoSteps "T" demoTextFormatter
    demoMarkupFormatter [demoEvent1, demoEvent2] rfl⟩

/-- C2: selecting the document stage on a fresh pipeline is the same as
selecting the markup stage with the default formatter and then the
document stage: the resulting pipeline states, hence the resolved
document bytes, are identical. -/
theorem claim_C2_default_substitution (locale : Int → String)
    (render : String → Except String Bytes) (steps : List FetchStep)
    (nm : String) :
    (allEvents steps nm).toPDF locale render =
      ((allEvents steps nm).toHTML (defaultHTMLFormatterE locale)).toPDF
        locale render ∧
    ((allEvents steps nm).toPDF locale render).toBuffer =
      (((allEvents steps nm).toHTML (defaultHTMLFormatterE locale)).toPDF
        locale render).toBuffer :=
  ⟨rfl, rfl⟩

/-- C3: resolution is idempotent: reading the result twice returns the
same value and leaves the instance unchanged, and over any sequence of
stage selections each stage formatter and the rendering engine run at
most once per stage on the instance. -/
theorem claim_C3_materialize_idempotent (locale : Int → String)
    (render : String → Except String Bytes) (steps : List FetchStep)
    (nm : String) (ops : List Op) :
    ((applyOps locale render ops (allEvents steps nm)).toBufferStep.1 =
      ((applyOps locale render ops (allEvents steps nm)).toBufferStep.2).toBufferStep.1) ∧
    (applyOps locale render ops (allEvents steps nm)).mdCalls ≤ 1 ∧
    (applyOps locale render ops (allEvents steps nm)).htmlCalls ≤ 1 ∧
    (applyOps locale render ops (allEvents steps nm)).renderCalls ≤ 1 := by
  have h := countInv_applyOps locale render ops (allEvents steps nm)
    (countInv_allEvents steps nm)
  exact ⟨rfl, h.2.1, h.2.2.2.1, h.2.2.2.2.2⟩

/-- C4: requesting the same stage more than once is the same as
requesting it once: a second call, with the same or another formatter or
engine, returns the pipeline state unchanged. -/
theorem claim_C4_stage_idempotent (s : PState) (f g : Formatter)
    (locale locale2 : Int → String)
    (render render2 : String → Except String Bytes) :
    (s.toMarkDown f).toMarkDown g = s.toMarkDown f ∧
    (s.toHTML f).toHTML g = s.toHTML f ∧
    (s.toPDF locale render).toPDF locale2 render2 = s.toPDF locale render := by
  refine ⟨?_, ?_, toPDF_toPDF locale locale2 render render2 s⟩
  · cases hm : s.markdown with
    | some d =>
      rw [toMarkDown_of_some f s d hm]
      exact toMarkDown_of_some g s d hm
    | none =>
      rw [toMarkDown_of_none f s hm]
      exact toMarkDown_of_some g _ _ rfl
  · cases hh : s.html with
    | some d =>
      rw [toHTML_of_some f s d hh]
      exact toHTML_of_some g s d hh
    | none =>
      rw [toHTML_of_none f s hh]
      exact toHTML_of_some g _ _ rfl

/-- C5: a fetch failure rejects the deferred record sequence with that
error; over any sequence of stage selections every registered stage slot
is rejected with the same error, resolution rejects with the same error,
and no formatter and no engine invocation happens. A source whose fetch
fails after some records rejects with exactly that failure. -/
theorem claim_C5_fetch_failure :
    (∀ (rs : List Event) (msg : String) (rest : List FetchStep),
      gatherAllEvents (rs.map FetchStep.ok ++ FetchStep.err msg :: rest) =
        some (Except.error msg)) ∧
    (∀ (locale : Int → String) (render : String → Except String Bytes)
        (steps : List FetchStep) (nm : String) (ops : List Op) (e : String),
      gatherAllEvents steps = some (Except.error e) →
      (applyOps locale render ops (allEvents steps nm)).toBuffer =
          some (Except.error e) ∧
      (∀ d, (applyOps locale render ops (allEvents steps nm)).markdown = some d →
        d = some (Except.error e)) ∧
      (∀ d, (applyOps locale render ops (allEvents steps nm)).html = some d →
        d = some (Except.error e)) ∧
      (∀ d, (applyOps locale render ops (allEvents steps nm)).pdf = some d →
        d = some (Except.error e)) ∧
      (applyOps locale render ops (allEvents steps nm)).mdCalls = 0 ∧
      (applyOps locale render ops (allEvents steps nm)).htmlCalls = 0 ∧
      (applyOps locale render ops (allEvents steps nm)).renderCalls = 0) := by
  refine ⟨fun rs msg rest => gatherGo_err rs msg rest [], ?_⟩
  intro locale render steps nm ops e hg
  have hinv : ErrInv e (allEvents steps nm) :=
    ⟨hg, fun d hd => by simp [allEvents] at hd, fun d hd => by simp [allEvents] at hd,
      fun d hd => by simp [allEvents] at hd, rfl, rfl, rfl⟩
  have h := errInv_applyOps e locale render ops (allEvents steps nm) hinv
  exact ⟨errInv_toBuffer e _ h, h.2.1, h.2.2.1, h.2.2.2.1, h.2.2.2.2.1,
    h.2.2.2.2.2.1, h.2.2.2.2.2.2⟩

/-- C5 witness: a source failing on the third fetch makes any pipeline,
here one selecting text then document, reject with that error without
any formatter or engine run. -/
theorem claim_C5_fetch_failure_witness :
    gatherAllEvents demoFailSteps = some (Except.error "FetchError") ∧
    (applyOps demoLocale demoRender [Op.md demoTextFormatter, Op.pdf]
        (allEvents demoFailSteps "T")).toBuffer =
      some (Except.error "FetchError") ∧
    (applyOps demoLocale demoRender [Op.md demoTextFormatter, Op.pdf]
        (allEvents demoFailSteps "T")).mdCalls = 0 ∧
    (applyOps demoLocale demoRender [Op.md demoTextFormatter, Op.pdf]
        (allEvents demoFailSteps "T")).renderCalls = 0 := by
  have h := claim_C5_fetch_failure.2 demoLocale demoRender demoFailSteps "T"
    [Op.md demoTextFormatter, Op.pdf] "FetchError" rfl
  exact ⟨rfl, h.1, h.2.2.2.2.1, h.2.2.2.2.2.2⟩

/-- C8: a source yielding records and then the end-of-sequence signal
gathers exactly those records in emission order, and a pipeline with no
stage selected resolves to that raw record sequence. -/
theorem claim_C8_raw_records (rs : List Event) (rest : List FetchStep)
    (nm : String) :
    gatherAllEvents (rs.map FetchStep.ok ++ FetchStep.eos :: rest) =
      some (Except.ok rs) ∧
    (allEvents (rs.map FetchStep.ok ++ FetchStep.eos :: rest) nm).toBuffer =
      some (Except.ok (Output.raw rs)) := by
  have hg : gatherAllEvents (rs.map FetchStep.ok ++ FetchStep.eos :: rest) =
      some (Except.ok rs) := by
    have := gatherGo_ok rs rest []
    simpa [gatherAllEvents] using this
  refine ⟨hg, ?_⟩
  show PState.toBuffer _ = _
  unfold PState.toBuffer
  simp only [allEvents]
  rw [hg]
  rfl

/-- C7: on a pipeline where only the Markdown stage is registered and the
document stage not yet, selecting the document stage builds it by
re-wrapping the Markdown output as one single default-HTML section titled
Markdown Content whose body is the Markdown with every newline turned
into a br tag, and rendering that; the default HTML document over one
event is exactly one section with no divider. -/
theorem claim_C7_markdown_rewrap (locale : Int → String)
    (render : String → Except String Bytes) (s : PState) (m : Deferred String)
    (hh : s.html = none) (hp : s.pdf = none) (hm : s.markdown = some m) :
    ((s.toPDF locale render).pdf = some (bindRender m (fun md =>
      render (defaultHTMLFormatter locale
        [{ time := "Markdown Content", value := replaceNewlinesBr md }]
        s.name)))) ∧
    (∀ (e : Event) (nm : String),
      defaultHTMLFormatter locale [e] nm = htmlDocWrap nm (htmlSection locale e)) := by
  constructor
  · simp [PState.toPDF, hh, hm, hp, registerPDF, wrapMarkdownAsHTML]
  · intro e nm
    rfl

/-- C7 witness: a concrete pipeline with only the text stage selected,
whose Markdown output is TEXT, registers the document computation over
the single-section re-wrap of TEXT. -/
theorem claim_C7_markdown_rewrap_witness :
    ((allEvents demoSteps "T").toMarkDown demoTextFormatter).html = none ∧
    ((allEvents demoSteps "T").toMarkDown demoTextFormatter).pdf = none ∧
    ((allEvents demoSteps "T").toMarkDown demoTextFormatter).markdown =
      some (some (Except.ok "TEXT")) ∧
    ((((allEvents demoSteps "T").toMarkDown demoTextFormatter).toPDF
        demoLocale demoRender).pdf = some (bindRender (some (Except.ok "TEXT"))
      (fun md => demoRender (defaultHTMLFormatter demoLocale
        [{ time := "Markdown Content", value := replaceNewlinesBr md }]
        "T")))) :=
  ⟨rfl, rfl, rfl,
    (claim_C7_markdown_rewrap demoLocale demoRender
      ((allEvents demoSteps "T").toMarkDown demoTextFormatter)
      (some (Except.ok "TEXT")) rfl rfl rfl).1⟩

/-- C9: the default text and markup formatters render one section per
record joined by a divider under the timeline heading; a section is
titled by the locale rendering of the timestamp exactly when the
timestamp is numeric and by the raw timestamp string verbatim otherwise,
with body equal to the record value. -/
theorem claim_C9_default_formatters (locale : Int → String) (nm : String)
    (evs : List Event) :
    defaultMarkdownFormatter locale evs nm =
      "# " ++ nm ++ "\n\n" ++
        String.intercalate "\n---\n\n" (evs.map (mdSection locale)) ∧
    (∀ e : Event, mdSection locale e =
      "## " ++ formatTime locale e.time ++ "\n\n" ++ e.value ++ "\n") ∧
    defaultHTMLFormatter locale evs nm =
      htmlDocWrap nm
        (String.intercalate "\n<hr>\n" (evs.map (htmlSection locale))) ∧
    (∀ e : Event, htmlSection locale e =
      "\n                <section class=\"event\">\n                    <h2>" ++
        formatTime locale e.time ++
        "</h2>\n                    <div class=\"event-content\">\n                        " ++
        e.value ++
        "\n                    </div>\n                </section>\n            ") ∧
    (∀ (t : String) (n : Int), jsNumber t = some n →
      formatTime locale t = locale n) ∧
    (∀ t : String, jsNumber t = none → formatTime locale t = t) := by
  refine ⟨rfl, fun e => rfl, rfl, fun e => rfl, ?_, ?_⟩
  · intro t n h
    unfold formatTime
    rw [h]
  · intro t h
    unfold formatTime
    rw [h]

/-- C9 witness: the numeric timestamp 1000 is rendered through the locale
rendering and the non-numeric timestamp n/a is kept verbatim. -/
theorem claim_C9_default_formatters_witness :
    jsNumber "1000" = some 1000 ∧
    formatTime demoLocale "1000" = demoLocale 1000 ∧
    jsNumber "n/a" = none ∧
    formatTime demoLocale "n/a" = "n/a" :=
  ⟨by decide,
    (claim_C9_default_formatters demoLocale "T" []).2.2.2.2.1 "1000" 1000
      (by decide),
    by decide,
    (claim_C9_default_formatters demoLocale "T" []).2.2.2.2.2 "n/a"
      (by decide)⟩

theorem mapExc_ok {α β : Type} (g : α → Except String β) (g2 : α → β) :
    ∀ l : List α, (∀ a ∈ l, g a = Except.ok (g2 a)) →
      mapExc g l = Except.ok (l.map g2) := by
  intro l
  induction l with
  | nil => intro _; rfl
  | cons a rest ih =>
    intro h
    have ha := h a (List.mem_cons_self a rest)
    have hr := ih (fun x hx => h x (List.mem_cons_of_mem a hx))
    simp [mapExc, ha, hr]

theorem notNull_fieldLineMD (j : Json) (f : String) (h : notNull j = true) :
    fieldLineMD j f = Except.ok ("- " ++ f ++ ": " ++ fieldValString j f) := by
  cases j with
  | null => simp [notNull] at h
  | bool b => rfl
  | num n => rfl
  | str s => rfl
  | arr xs => rfl
  | obj m => rfl

theorem notNull_fieldLineHTML (j : Json) (f : String) (h : notNull j = true) :
    fieldLineHTML j f =
      Except.ok ("<li><strong>" ++ jsToUpper f ++ ":</strong> " ++
        fieldValString j f ++ "</li>") := by
  cases j with
  | null => simp [notNull] at h
  | bool b => rfl
  | num n => rfl
  | str s => rfl
  | arr xs => rfl
  | obj m => rfl

theorem parsesToNull_false_notNull (parse : String → Option Json) (v : String)
    (h : parsesToNull parse v = false) : notNull (jsonDataOf parse v) = true := by
  unfold parsesToNull at h
  unfold jsonDataOf
  cases hp : parse v with
  | none => rfl
  | some j =>
    rw [hp] at h
    cases j with
    | null => simp at h
    | bool b => rfl
    | num n => rfl
    | str s => rfl
    | arr xs => rfl
    | obj m => rfl

theorem jsonMdSectionE_ok (parse : String → Option Json)
    (locale : Int → String) (fields : List String) (e : Event)
    (h : parsesToNull parse e.value = false) :
    jsonMdSectionE parse locale fields e =
      Except.ok (jsonMdSectionStr parse locale fields e) := by
  have hn := parsesToNull_false_notNull parse e.value h
  unfold jsonMdSectionE
  rw [mapExc_ok (fieldLineMD (jsonDataOf parse e.value))
    (fun f => "- " ++ f ++ ": " ++ fieldValString (jsonDataOf parse e.value) f)
    fields (fun f _ => notNull_fieldLineMD _ f hn)]
  rfl

theorem jsonHtmlSectionE_ok (parse : String → Option Json)
    (locale : Int → String) (fields : List String) (e : Event)
    (h : parsesToNull parse e.value = false) :
    jsonHtmlSectionE parse locale fields e =
      Except.ok (jsonHtmlSectionStr parse locale fields e) := by
  have hn := parsesToNull_false_notNull parse e.value h
  unfold jsonHtmlSectionE
  rw [mapExc_ok (fieldLineHTML (jsonDataOf parse e.value))
    (fun f => "<li><strong>" ++ jsToUpper f ++ ":</strong> " ++
      fieldValString (jsonDataOf parse e.value) f ++ "</li>")
    fields (fun f _ => notNull_fieldLineHTML _ f hn)]
  rfl

/-- C6 counterexample: the field-projecting formatters can throw. The
value null is valid JSON, so the parse step succeeds with the null
literal instead of taking the fallback, and the following property read
on null throws an uncaught TypeError: both builders reject on a record
with value null and a nonempty field list. -/
theorem claim_C6_counterexample :
    demoParse "null" = some Json.null ∧
    buildJSONMarkdownFormatter demoParse demoLocale ["title"]
      [{ time := "1", value := "null" }] "T" = Except.error jsNullAccessError ∧
    buildJSONHTMLFormatter demoParse demoLocale ["title"]
      [{ time := "1", value := "null" }] "T" = Except.error jsNullAccessError :=
  ⟨rfl, rfl, rfl⟩

/-- C6 amended: for every field list and record sequence in which no
record value parses to the null literal, the field-projecting builders
never throw: each returns the sections of its records, one line or list
item per requested field in caller order, field name and value both
rendered, an undefined field rendered empty; a record value that fails to
parse is replaced by the object with the single fallback field raw
holding the whole value. -/
theorem claim_C6_amended (parse : String → Option Json)
    (locale : Int → String) (fields : List String) (events : List Event)
    (nm : String) (h : ∀ e ∈ events, parsesToNull parse e.value = false) :
    buildJSONMarkdownFormatter parse locale fields events nm =
      Except.ok ("# " ++ nm ++ "\n\n" ++ String.intercalate "\n---\n\n"
        (events.map (jsonMdSectionStr parse locale fields))) ∧
    buildJSONHTMLFormatter parse locale fields events nm =
      Except.ok (jsonHtmlDocWrap nm (String.intercalate "\n<hr>\n"
        (events.map (jsonHtmlSectionStr parse locale fields)))) ∧
    (∀ e : Event, jsonMdSectionStr parse locale fields e =
      "## " ++ formatTime locale e.time ++ "\n\n" ++
        String.intercalate "\n" (fields.map (fun f =>
          "- " ++ f ++ ": " ++ fieldValString (jsonDataOf parse e.value) f)) ++
        "\n") ∧
    (∀ v : String, parse v = none →
      jsonDataOf parse v = Json.obj [("raw", Json.str v)]) := by
  refine ⟨?_, ?_, fun e => rfl, ?_⟩
  · unfold buildJSONMarkdownFormatter
    rw [mapExc_ok (jsonMdSectionE parse locale fields)
      (jsonMdSectionStr parse locale fields) events
      (fun e he => jsonMdSectionE_ok parse locale fields e (h e he))]
  · unfold buildJSONHTMLFormatter
    rw [mapExc_ok (jsonHtmlSectionE parse locale fields)
      (jsonHtmlSectionStr parse locale fields) events
      (fun e he => jsonHtmlSectionE_ok parse locale fields e (h e he))]
  · intro v hv
    unfold jsonDataOf
    rw [hv]

/-- C6 amended witness: on a record with a flat JSON object value and one
with an unparseable value, with two requested fields, the Markdown
builder succeeds with one section per record. -/
theorem claim_C6_amended_witness :
    (∀ e ∈ [demoJsonEvent, demoBadJsonEvent],
      parsesToNull demoParse e.value = false) ∧
    buildJSONMarkdownFormatter demoParse demoLocale ["title", "description"]
        [demoJsonEvent, demoBadJsonEvent] "T" =
      Except.ok ("# " ++ "T" ++ "\n\n" ++ String.intercalate "\n---\n\n"
        ([demoJsonEvent, demoBadJsonEvent].map
          (jsonMdSectionStr demoParse demoLocale ["title", "description"]))) :=
  ⟨by decide,
    (claim_C6_amended demoParse demoLocale ["title", "description"]
      [demoJsonEvent, demoBadJsonEvent] "T" (by decide)).1⟩

/-- C10 counterexample: an absent field is not the only case rendered
empty. A field present in the parsed payload with the empty-string value
is also rendered with an empty value: with value an object mapping f to
the empty string, the field f is defined, yet its bullet line shows
nothing after the colon. -/
theorem claim_C10_counterexample :
    demoParse "\x7b\"f\":\"\"\x7d" = some (Json.obj [("f", Json.str "")]) ∧
    jsLookup (Json.obj [("f", Json.str "")]) "f" = some (Json.str "") ∧
    buildJSONMarkdownFormatter demoParse demoLocale ["f"]
        [{ time := "1", value := "\x7b\"f\":\"\"\x7d" }] "T" =
      Except.ok "# T\n\n## [1]\n\n- f: \n" :=
  ⟨rfl, rfl, rfl⟩

/-- C10 amended: for a record whose value parses to an object, the
field-projecting formatters render the literal text null for a field
mapped to the null value (null passes the undefined check), and render an
empty value for a field absent from the parsed payload; absence is not
the only empty-rendering case, since a present field whose value coerces
to the empty string also renders empty. -/
theorem claim_C10_null_vs_absent (parse : String → Option Json)
    (locale : Int → String) (m : List (String × Json)) (f t v nm : String)
    (hp : parse v = some (Json.obj m)) :
    (jsLookup (Json.obj m) f = some Json.null →
      fieldLineMD (Json.obj m) f = Except.ok ("- " ++ f ++ ": " ++ "null") ∧
      fieldLineHTML (Json.obj m) f =
        Except.ok ("<li><strong>" ++ jsToUpper f ++ ":</strong> " ++ "null" ++
          "</li>") ∧
      buildJSONMarkdownFormatter parse locale [f] [{ time := t, value := v }] nm =
        Except.ok ("# " ++ nm ++ "\n\n" ++ ("## " ++ formatTime locale t ++
          "\n\n" ++ ("- " ++ f ++ ": " ++ "null") ++ "\n"))) ∧
    (jsLookup (Json.obj m) f = none →
      fieldLineMD (Json.obj m) f = Except.ok ("- " ++ f ++ ": " ++ "") ∧
      fieldLineHTML (Json.obj m) f =
        Except.ok ("<li><strong>" ++ jsToUpper f ++ ":</strong> " ++ "" ++
          "</li>") ∧
      fieldValString (Json.obj m) f = "") := by
  constructor
  · intro hl
    refine ⟨?_, ?_, ?_⟩
    · simp [fieldLineMD, jsIndex, Except.map, hl, jsToString]
    · simp [fieldLineHTML, jsIndex, Except.map, hl, jsToString]
    · unfold buildJSONMarkdownFormatter
      have hsec : jsonMdSectionE parse locale [f] { time := t, value := v } =
          Except.ok ("## " ++ formatTime locale t ++ "\n\n" ++
            ("- " ++ f ++ ": " ++ "null") ++ "\n") := by
        unfold jsonMdSectionE
        simp only [mapExc, jsonDataOf, hp, fieldLineMD, jsIndex, hl, Except.map]
        rfl
      simp only [mapExc, hsec]
      rfl
  · intro hl
    refine ⟨?_, ?_, ?_⟩
    · simp [fieldLineMD, jsIndex, Except.map, hl]
    · simp [fieldLineHTML, jsIndex, Except.map, hl]
    · simp [fieldValString, hl]

/-- C10 witness: on the object mapping f to null the line for f shows
null and the whole Markdown build renders it; on the same object the
absent field g renders empty. -/
theorem claim_C10_null_vs_absent_witness :
    fieldLineMD (Json.obj [("f", Json.null)]) "f" =
      Except.ok ("- " ++ "f" ++ ": " ++ "null") ∧
    buildJSONMarkdownFormatter demoParse demoLocale ["f"]
        [{ time := "1", value := "\x7b\"f\":null\x7d" }] "T" =
      Except.ok ("# " ++ "T" ++ "\n\n" ++ ("## " ++
        formatTime demoLocale "1" ++ "\n\n" ++ ("- " ++ "f" ++ ": " ++
        "null") ++ "\n")) ∧
    fieldLineMD (Json.obj [("f", Json.null)]) "g" =
      Except.ok ("- " ++ "g" ++ ": " ++ "") ∧
    fieldValString (Json.obj [("f", Json.null)]) "g" = "" :=
  ⟨((claim_C10_null_vs_absent demoParse demoLocale [("f", Json.null)] "f" "1"
      "\x7b\"f\":null\x7d" "T" rfl).1 rfl).1,
    ((claim_C10_null_vs_absent demoParse demoLocale [("f", Json.null)] "f" "1"
      "\x7b\"f\":null\x7d" "T" rfl).1 rfl).2.2,
    ((claim_C10_null_vs_absent demoParse demoLocale [("f", Json.null)] "g" "1"
      "\x7b\"f\":null\x7d" "T" rfl).2 rfl).1,
    ((claim_C10_null_vs_absent demoParse demoLocale [("f", Json.null)] "g" "1"
      "\x7b\"f\":null\x7d" "T" rfl).2 rfl).2.2⟩
